import Mathlib

set_option maxHeartbeats 1000000

/-!
Verification of the process-supervision core of mcp-rewatch.

The definitions below are a shallow embedding of the source files
`src/log-buffer.ts` (functional version, `createLogBuffer`) and
`src/process-manager.ts` (functional version, `createProcessManager`).
Effectful inputs of the code (timestamps from `new Date()`, the outcome of
`spawn`, asynchronous `spawn`/`exit`/`error` events, the race between the
exit event and the 5-second escalation timer) are passed as explicit
parameters, so every function is a pure state transition taken verbatim
from the source.
-/

namespace Rewatch

/-! ## Log buffer (`createLogBuffer`) -/

/-- `const maxLineLength = 5000` in `createLogBuffer`. -/
def maxLineLength : Nat := 5000

/-- `line.length > maxLineLength ? line.substring(0, maxLineLength) + '... (truncated)' : line`. -/
def truncatedLine (line : String) : String :=
  if line.length > maxLineLength then line.take maxLineLength ++ "... (truncated)" else line

/-- The entry pushed on the normal path: `` `[${timestamp}] ${truncatedLine}` ``. -/
def formatEntry (timestamp line : String) : String :=
  "[" ++ timestamp ++ "] " ++ truncatedLine line

/-- The synthetic entry pushed in the outer `catch` of `addLine`:
`` `[error] Failed to add log: ${error instanceof Error ? error.message : 'unknown error'}` ``. -/
def failedAddEntry (errMessage : Option String) : String :=
  "[error] Failed to add log: " ++ errMessage.getD "unknown error"

/-- Which control path a call to `addLine` takes.  The normal path consumes a
timestamp produced by `new Date().toISOString()`; the `fallback` path models the
outer `catch` (an internal error before the push, e.g. timestamp generation,
carrying `error.message` when the thrown value was an `Error`); `doubleFault`
models the inner `catch` where even pushing the synthetic entry failed. -/
inductive AddPath where
  | ok (timestamp : String)
  | fallback (errMessage : Option String)
  | doubleFault
deriving DecidableEq

/-- The capacity check of the normal path:
`if (buffer.length > maxLines) { const excess = buffer.length - maxLines; buffer.splice(0, Math.max(1, excess)) }`. -/
def pushEvict (maxLines : Nat) (b : List String) : List String :=
  if b.length > maxLines then b.drop (max 1 (b.length - maxLines)) else b

/-- The capacity check of both `catch` paths: `if (buffer.length > maxLines) buffer.shift()`. -/
def pushShift (maxLines : Nat) (b : List String) : List String :=
  if b.length > maxLines then b.drop 1 else b

/-- `addLine` of `createLogBuffer`, one call, on the given control path. -/
def addLine (maxLines : Nat) (buffer : List String) (line : String) : AddPath → List String
  | .ok ts => pushEvict maxLines (buffer ++ [formatEntry ts line])
  | .fallback em => pushShift maxLines (buffer ++ [failedAddEntry em])
  | .doubleFault => pushShift maxLines buffer

/-- `getLines` of `createLogBuffer`: `if (!count) return [...buffer]; return buffer.slice(-count)`.
`none` models a missing argument; JavaScript `!count` is also true for `count = 0`. -/
def getLines (buffer : List String) : Option Nat → List String
  | none => buffer
  | some count => if count = 0 then buffer else buffer.drop (buffer.length - count)

/-- The last `count` entries of a list (the meaning of `slice(-count)` for positive
`count`), used to state the FIFO-suffix properties. -/
def lastEntries (count : Nat) (l : List String) : List String :=
  l.drop (l.length - count)

/-- One recorded call to `addLine`: the raw line and the control path taken. -/
structure AddCall where
  line : String
  path : AddPath
deriving DecidableEq

/-- The entry a call appends (none on the double-fault path). -/
def entryOf (c : AddCall) : List String :=
  match c.path with
  | .ok ts => [formatEntry ts c.line]
  | .fallback em => [failedAddEntry em]
  | .doubleFault => []

/-- Run a sequence of `addLine` calls against a buffer. -/
def addAll (maxLines : Nat) (buffer : List String) : List AddCall → List String
  | [] => buffer
  | c :: cs => addAll maxLines (addLine maxLines buffer c.line c.path) cs

/-- All entries a sequence of calls appends, in call order. -/
def entriesOf (cs : List AddCall) : List String :=
  (cs.map entryOf).flatten

/-! ## Process manager (`createProcessManager`) -/

/-- `ProcessStatus`. Modelled from the spec: `src/types.ts` is not under `src/`;
spec §3 gives `status: {stopped, starting, running, error}`, matching every use
in `process-manager`. -/
inductive ProcessStatus where
  | stopped
  | starting
  | running
  | error
deriving DecidableEq

/-- `ProcessConfig`. Modelled from the spec: `src/types.ts` is not under `src/`;
spec §3/§6 give `{command, args, cwd?, env?, startupDelay?: integer-ms}`,
matching every field `process-manager` reads. -/
structure ProcessConfig where
  command : String
  args : List String
  cwd : Option String
  env : List (String × String)
  startupDelay : Option Nat
deriving DecidableEq

/-- The live `ChildProcess` handle; its `pid` is `undefined` when the spawn
fails asynchronously. -/
structure ChildProcess where
  pid : Option Nat
deriving DecidableEq

/-- The `ManagedProcess` record of `process-manager`. -/
structure ManagedProcess where
  config : ProcessConfig
  process : Option ChildProcess
  status : ProcessStatus
  pid : Option Nat
  startTime : Option Nat
  logBuffer : List String
  error : Option String
deriving DecidableEq

/-- `ProcessInfo`. Modelled from the spec: `src/types.ts` is not under `src/`;
spec §4.3 gives the snapshot `{name, status, pid?, startTime?, lastError?}`,
matching the object literal `listProcesses` builds. -/
structure ProcessInfo where
  name : String
  status : ProcessStatus
  pid : Option Nat
  startTime : Option Nat
  error : Option String
deriving DecidableEq

/-- `listProcesses`: one snapshot per registered name. -/
def listProcesses (processes : List (String × ManagedProcess)) : List ProcessInfo :=
  processes.map fun nm => ⟨nm.1, nm.2.status, nm.2.pid, nm.2.startTime, nm.2.error⟩

/-- One record's manager state: the record plus a clock indexing the timestamp
oracle (each `addLine` call consumes `new Date().toISOString()` once). -/
structure MState where
  mp : ManagedProcess
  clock : Nat
deriving DecidableEq

/-- `createLogBuffer()` inside the manager uses the default capacity `10000`. -/
def bufCapacity : Nat := 10000

/-- An `addLine` call made by the manager on the normal path, consuming the next
timestamp of the oracle `ts`. -/
def pushLog (ts : Nat → String) (s : MState) (line : String) : MState :=
  ⟨{ s.mp with logBuffer := addLine bufCapacity s.mp.logBuffer line (.ok (ts s.clock)) },
    s.clock + 1⟩

/-- A Node `Error` carrying its optional `code` (`'ENOENT'`, ...). -/
structure ProcessError where
  code : Option String
  message : String
deriving DecidableEq

/-- How `${x}` renders an optional number in a template literal. -/
def pidStr : Option Nat → String
  | none => "undefined"
  | some n => toString n

/-- How `${x}` renders an optional string in a template literal. -/
def cwdStr : Option String → String
  | none => "undefined"
  | some c => c

/-- The closed enumeration behind the `errorHandlers` dispatch keys
`ENOENT`/`EACCES`/`ENOTDIR`/`EMFILE` plus the fallback arm. -/
inductive ErrorCategory where
  | notFound
  | permission
  | config
  | resource
  | unknown
deriving DecidableEq

/-- What a handler of `handleProcessError` produces: the string stored in
`managed.error` and the message logged as `` `[error] ${message}` ``. -/
structure ClassifiedError where
  category : ErrorCategory
  error : String
  message : String
deriving DecidableEq

/-- The dispatch `errorHandlers[error.code || '']` of `handleProcessError` with
its four handlers and the fallback. -/
def classifyError (e : ProcessError) (command : String) (cwd : Option String) :
    ClassifiedError :=
  let key := e.code.getD ""
  if key = "ENOENT" then
    ⟨.notFound, "Command not found: " ++ command,
      "Command '" ++ command ++ "' not found. Check if it's installed and in PATH."⟩
  else if key = "EACCES" then
    ⟨.permission, "Permission denied: " ++ command,
      "Permission denied executing '" ++ command ++ "'. Check file permissions."⟩
  else if key = "ENOTDIR" then
    ⟨.config, "Invalid working directory: " ++ cwdStr cwd,
      "Working directory '" ++ cwdStr cwd ++ "' is not a directory."⟩
  else if key = "EMFILE" then
    ⟨.resource, "Too many open files", "Too many open files. System limit reached."⟩
  else
    ⟨.unknown, e.message,
      "Process error: " ++ e.message ++ " (" ++
        (if key = "" then "unknown code" else key) ++ ")"⟩

/-- `handleProcessError` (also the `proc.on('error')` callback): classify, set
`status = 'error'`, record `managed.error`, append the `[error]` log line.  It
throws nothing and touches neither `pid` nor `process`. -/
def handleProcessError (ts : Nat → String) (s : MState) (e : ProcessError) : MState :=
  let c := classifyError e s.mp.config.command s.mp.config.cwd
  pushLog ts ⟨{ s.mp with status := .error, error := some c.error }, s.clock⟩
    ("[error] " ++ c.message)

/-- What the `spawn` call itself does: return a handle (a nonexistent command
still returns one — its ENOENT arrives later through the `error` event), or
throw synchronously. -/
inductive SpawnOutcome where
  | ok (procPid : Option Nat)
  | raises (e : ProcessError)
deriving DecidableEq

/-- The outcome of one `start` call: the new state, the error it rethrew (if
any), and whether control reached the `spawn` call. -/
structure StartResult where
  st : MState
  raised : Option ProcessError
  spawnAttempted : Bool
deriving DecidableEq

/-- `start`: the `running`/`starting` guard, the `starting` transition, the
`spawn` call and its synchronous `catch` (with the dedicated ENOENT branch).
The asynchronous callbacks registered here are the separate transitions
`onSpawnAck`, `handleProcessOutput`, `handleProcessError` and `onExit`. -/
def start (ts : Nat → String) (s : MState) (outcome : SpawnOutcome) (now : Nat) :
    StartResult :=
  if s.mp.status = .running ∨ s.mp.status = .starting then ⟨s, none, false⟩
  else
    let s1 : MState := ⟨{ s.mp with status := .starting, error := none }, s.clock⟩
    match outcome with
    | .ok procPid =>
      ⟨⟨{ s1.mp with process := some ⟨procPid⟩, pid := procPid, startTime := some now },
          s1.clock⟩, none, true⟩
    | .raises e =>
      if e.code = some "ENOENT" then
        ⟨pushLog ts
            ⟨{ s1.mp with status := .error, error := some ("Command not found: " ++ s1.mp.config.command) }, s1.clock⟩
            ("[error] Failed to spawn process: command '" ++ s1.mp.config.command ++
              "' not found"),
          some e, true⟩
      else
        ⟨pushLog ts ⟨{ s1.mp with status := .error, error := some e.message }, s1.clock⟩
            ("[error] Failed to spawn process: " ++ e.message),
          some e, true⟩

/-- The `proc.once('spawn')` callback: set `status = 'running'` and log the pid
of the spawned handle. -/
def onSpawnAck (ts : Nat → String) (s : MState) (procPid : Option Nat) : MState :=
  pushLog ts ⟨{ s.mp with status := .running }, s.clock⟩
    ("[system] Process started successfully (PID: " ++ pidStr procPid ++ ")")

/-- The two output streams. -/
inductive StdStream where
  | stdout
  | stderr
deriving DecidableEq

def streamTag : StdStream → String
  | .stdout => "stdout"
  | .stderr => "stderr"

/-- `handleProcessOutput`: split the chunk on newlines, keep the non-empty
lines, append each tagged with its stream. -/
def handleProcessOutput (ts : Nat → String) (s : MState) (chunk : String)
    (stream : StdStream) : MState :=
  ((chunk.splitOn "\n").filter (fun l => l ≠ "")).foldl
    (fun st line => pushLog ts st ("[" ++ streamTag stream ++ "] " ++ line)) s

/-- How `${code}` renders Node's nullable exit code. -/
def exitCodeStr : Option Int → String
  | none => "null"
  | some c => toString c

/-- The non-signal arm of the exit handler. -/
def exitCodeLog (ts : Nat → String) (s : MState) (code : Option Int) : MState :=
  if code = some 0 then pushLog ts s "[exit] Process exited successfully (code 0)"
  else pushLog ts s ("[exit] Process exited with code " ++ exitCodeStr code)

/-- The `proc.on('exit')` callback registered by `start`: set
`status = 'stopped'`, clear `pid` (the handle is left in place), log the exit
kind.  `if (signal)` is JavaScript-truthy: an empty string falls through to the
code arm. -/
def onExit (ts : Nat → String) (s : MState) (code : Option Int) (signal : Option String) :
    MState :=
  let s1 : MState := ⟨{ s.mp with status := .stopped, pid := none }, s.clock⟩
  match signal with
  | some sig =>
    if sig = "" then exitCodeLog ts s1 code
    else pushLog ts s1 ("[exit] Process terminated by signal " ++ sig)
  | none => exitCodeLog ts s1 code

/-- JavaScript truthiness of `proc.pid`. -/
def pidTruthy : Option Nat → Bool
  | none => false
  | some n => n != 0

/-- How a run of `stop` on a live handle can unfold: the exit event wins the
race against the 5-second timer; the SIGTERM send throws; or the timer fires
first (SIGKILL possibly failing, the exit event possibly firing during the
final 1-second grace wait). -/
inductive StopScenario where
  | exitBeforeTimer
  | sigtermThrows (errMessage : String)
  | escalate (sigkillError : Option String) (exitDuringGrace : Bool)
deriving DecidableEq

/-- The state of `stop`'s promise executor: the record state, the single-shot
`killed` flag, and a count of how many times `cleanup`'s body has run. -/
structure StopRun where
  st : MState
  killed : Bool
  cleanups : Nat
deriving DecidableEq

/-- `cleanup(reason)` inside `stop`: a no-op once `killed` is set; otherwise it
clears the handle and `pid`, sets `status = 'stopped'`, logs the reason and
resolves. -/
def cleanup (ts : Nat → String) (r : StopRun) (reason : String) : StopRun :=
  if r.killed then r
  else
    ⟨pushLog ts ⟨{ r.st.mp with process := none, pid := none, status := .stopped },
        r.st.clock⟩ ("[system] Process stopped: " ++ reason),
      true, r.cleanups + 1⟩

/-- The log line of the SIGTERM send (group targeting off Windows). -/
def sigtermSendLog (isWin : Bool) (proc : ChildProcess) : String :=
  if !isWin && pidTruthy proc.pid then
    "[system] Sent SIGTERM signal to process group " ++ pidStr proc.pid
  else
    "[system] Sent SIGTERM signal for graceful shutdown"

/-- `stop`: resolves immediately with no live handle; otherwise runs the
executor along the given scenario.  In `escalate`, a successful group-targeted
SIGKILL logs a line, a single-process SIGKILL logs nothing, and a failed send
logs the failure; `cleanup('force killed')` always follows the grace wait. -/
def stop (ts : Nat → String) (s : MState) (isWin : Bool) (scen : StopScenario) : StopRun :=
  match s.mp.process with
  | none => ⟨s, false, 0⟩
  | some proc =>
    match scen with
    | .sigtermThrows em =>
      cleanup ts ⟨pushLog ts s ("[error] Failed to send SIGTERM: " ++ em), false, 0⟩
        "kill failed"
    | .exitBeforeTimer =>
      cleanup ts ⟨pushLog ts s (sigtermSendLog isWin proc), false, 0⟩ "graceful shutdown"
    | .escalate sigkillError exitDuringGrace =>
      let r1 : StopRun := ⟨pushLog ts s (sigtermSendLog isWin proc), false, 0⟩
      let r2 : StopRun :=
        ⟨pushLog ts r1.st
            "[warning] Process did not respond to SIGTERM within 5 seconds, sending SIGKILL",
          r1.killed, r1.cleanups⟩
      let r3 : StopRun :=
        match sigkillError with
        | none =>
          if !isWin && pidTruthy proc.pid then
            ⟨pushLog ts r2.st ("[system] Sent SIGKILL to process group " ++ pidStr proc.pid),
              r2.killed, r2.cleanups⟩
          else r2
        | some em =>
          ⟨pushLog ts r2.st ("[error] Failed to send SIGKILL: " ++ em), r2.killed, r2.cleanups⟩
      let r4 : StopRun := if exitDuringGrace then cleanup ts r3 "graceful shutdown" else r3
      cleanup ts r4 "force killed"

/-- `managed.config.startupDelay || 3000`: `0` is falsy in JavaScript, so a
configured `0` also yields `3000`. -/
def effectiveStartupDelay (config : ProcessConfig) : Nat :=
  match config.startupDelay with
  | none => 3000
  | some d => if d = 0 then 3000 else d

/-- The asynchronous callbacks that can fire while `restart` waits out the
startup delay. -/
inductive AsyncEvent where
  | spawnAck (procPid : Option Nat)
  | output (stream : StdStream) (chunk : String)
  | errored (e : ProcessError)
  | exited (code : Option Int) (signal : Option String)
deriving DecidableEq

def applyEvent (ts : Nat → String) (s : MState) : AsyncEvent → MState
  | .spawnAck procPid => onSpawnAck ts s procPid
  | .output stream chunk => handleProcessOutput ts s chunk stream
  | .errored e => handleProcessError ts s e
  | .exited code signal => onExit ts s code signal

/-- What `restart` resolves with, plus the duration it waited (ghost field). -/
structure RestartResult where
  st : MState
  success : Bool
  logs : List String
  waited : Nat
deriving DecidableEq

/-- `managed.logBuffer.clear()`: discard all entries, everything else kept. -/
def clearBuf (s : MState) : MState :=
  ⟨{ s.mp with logBuffer := [] }, s.clock⟩

/-- `restart`: `await stop(name)` → `managed.logBuffer.clear()` →
`await start(name)` (a synchronous spawn error propagates to the caller) →
wait `startupDelay || 3000`, during which `events` fire → sample `status` and
take the last 20 log lines. -/
def restart (ts : Nat → String) (s : MState) (isWin : Bool) (scen : StopScenario)
    (outcome : SpawnOutcome) (now : Nat) (events : List AsyncEvent) :
    Except ProcessError RestartResult :=
  let r := start ts (clearBuf (stop ts s isWin scen).st) outcome now
  match r.raised with
  | some e => .error e
  | none =>
    let s4 := events.foldl (applyEvent ts) r.st
    .ok ⟨s4, decide (s4.mp.status = .running), getLines s4.mp.logBuffer (some 20),
      effectiveStartupDelay r.st.mp.config⟩

/-! ## Concrete fixtures used by counterexamples and witnesses -/

/-- A concrete timestamp oracle. -/
def exTs : Nat → String := fun n => "ts" ++ toString n

def exConfig : ProcessConfig := ⟨"npm", ["run", "dev"], none, [], none⟩

/-- A record with a live handle in status `running`. -/
def runningMp : ManagedProcess := ⟨exConfig, some ⟨some 42⟩, .running, some 42, some 0, [], none⟩

/-- A record with no live handle in status `stopped`. -/
def stoppedMp : ManagedProcess := ⟨exConfig, none, .stopped, none, none, [], none⟩

def badCmdConfig : ProcessConfig := ⟨"definitely-missing-cmd", [], none, [], none⟩

def badCmdMp : ManagedProcess := ⟨badCmdConfig, none, .stopped, none, none, [], none⟩

def spawnEnoent : ProcessError := ⟨some "ENOENT", "spawn definitely-missing-cmd ENOENT"⟩

def zeroDelayConfig : ProcessConfig := ⟨"npm", [], none, [], some 0⟩

def zeroDelayMp : ManagedProcess := ⟨zeroDelayConfig, none, .stopped, none, none, [], none⟩

/-- `needle` occurs contiguously inside `s`. -/
def substringOf (needle s : String) : Prop :=
  List.IsInfix needle.data s.data

end Rewatch

namespace Rewatch

lemma length_lastEntries (n : Nat) (l : List String) :
    (lastEntries n l).length = min n l.length := by
  simp [lastEntries]
  omega

lemma lastEntries_nil (n : Nat) : lastEntries n [] = [] := by
  simp [lastEntries]

lemma noEvict (m : Nat) (l : List String) (e : String)
    (h : ¬ (lastEntries m l ++ [e]).length > m) :
    lastEntries m l ++ [e] = lastEntries m (l ++ [e]) := by
  simp only [lastEntries, List.length_append, List.length_drop, List.length_cons,
    List.length_nil, Nat.not_lt] at h ⊢
  have h1 : l.length - m = 0 := by omega
  have h2 : l.length + 1 - m = 0 := by omega
  rw [h1, h2]
  simp

lemma evictOne (m : Nat) (l : List String) (e : String)
    (h : (lastEntries m l ++ [e]).length > m) :
    (lastEntries m l ++ [e]).drop 1 = lastEntries m (l ++ [e]) := by
  have hm : m ≤ l.length := by
    simp only [lastEntries, List.length_append, List.length_drop, List.length_cons,
      List.length_nil] at h
    omega
  rcases Nat.eq_zero_or_pos m with hm0 | hm1
  · subst hm0
    have h1 : lastEntries 0 l = [] := by
      simp [lastEntries]
    rw [h1]
    have h2 : lastEntries 0 (l ++ [e]) = [] := by
      simp [lastEntries]
    rw [h2]
    simp
  · have h2 : 1 ≤ (lastEntries m l).length := by
      rw [length_lastEntries]; omega
    rw [List.drop_append_of_le_length h2]
    simp only [lastEntries, List.drop_drop, List.length_append, List.length_cons,
      List.length_nil]
    rw [List.drop_append_of_le_length (by omega)]
    congr 2
    omega

lemma addLine_lastEntries (m : Nat) (l : List String) (c : AddCall) :
    addLine m (lastEntries m l) c.line c.path = lastEntries m (l ++ entryOf c) := by
  obtain ⟨line, p⟩ := c
  cases p with
  | ok ts =>
    simp only [addLine, entryOf, pushEvict]
    by_cases h : (lastEntries m l ++ [formatEntry ts line]).length > m
    · rw [if_pos h]
      have hk : max 1 ((lastEntries m l ++ [formatEntry ts line]).length - m) = 1 := by
        simp only [List.length_append, length_lastEntries, List.length_cons, List.length_nil]
        simp only [List.length_append, length_lastEntries, List.length_cons,
          List.length_nil] at h
        omega
      rw [hk]
      exact evictOne m l _ h
    · rw [if_neg h]
      exact noEvict m l _ h
  | fallback em =>
    simp only [addLine, entryOf, pushShift]
    by_cases h : (lastEntries m l ++ [failedAddEntry em]).length > m
    · rw [if_pos h]
      exact evictOne m l _ h
    · rw [if_neg h]
      exact noEvict m l _ h
  | doubleFault =>
    simp only [addLine, entryOf, pushShift, List.append_nil]
    have h : ¬ (lastEntries m l).length > m := by
      rw [length_lastEntries]; omega
    rw [if_neg h]

lemma addAll_lastEntries (m : Nat) (cs : List AddCall) :
    ∀ l, addAll m (lastEntries m l) cs = lastEntries m (l ++ entriesOf cs) := by
  induction cs with
  | nil =>
    intro l
    simp [addAll, entriesOf]
  | cons c cs ih =>
    intro l
    simp only [addAll]
    rw [addLine_lastEntries, ih (l ++ entryOf c)]
    simp [entriesOf, List.append_assoc]

/-- C2: a log buffer created with capacity `maxLines`, after any sequence of
`addLine` calls (normal, fallback and double-fault paths alike), holds exactly
the most recently appended entries in insertion order — the length-`maxLines`
suffix of everything appended — and in particular never more than `maxLines`
entries. -/
theorem logBuffer_capacity_fifo (m : Nat) (cs : List AddCall) :
    addAll m [] cs = lastEntries m (entriesOf cs) ∧ (addAll m [] cs).length ≤ m := by
  have h0 : ([] : List String) = lastEntries m [] := (lastEntries_nil m).symm
  have h1 : addAll m [] cs = lastEntries m (entriesOf cs) := by
    rw [h0, addAll_lastEntries]
    simp
  refine ⟨h1, ?_⟩
  rw [h1, length_lastEntries]
  omega

lemma getLast?_pushEvict (m : Nat) (xs : List String) (e : String) (hm : 1 ≤ m) :
    (pushEvict m (xs ++ [e])).getLast? = some e := by
  simp only [pushEvict]
  by_cases h : (xs ++ [e]).length > m
  · rw [if_pos h]
    simp only [List.length_append, List.length_cons, List.length_nil] at h
    have hk : max 1 ((xs ++ [e]).length - m) ≤ xs.length := by
      simp only [List.length_append, List.length_cons, List.length_nil]
      omega
    rw [List.drop_append_of_le_length hk]
    exact List.getLast?_concat _
  · rw [if_neg h]
    exact List.getLast?_concat _

/-- C6: `addLine` stores a line of at most 5000 characters verbatim, with only
the timestamp prefix added; it stores a longer line truncated to its first 5000
characters with the `... (truncated)` marker appended. -/
theorem addLine_truncation (m : Nat) (buffer : List String) (ts line : String)
    (hm : 1 ≤ m) :
    (line.length ≤ 5000 →
      (addLine m buffer line (.ok ts)).getLast? = some ("[" ++ ts ++ "] " ++ line)) ∧
    (line.length > 5000 →
      (addLine m buffer line (.ok ts)).getLast? =
        some ("[" ++ ts ++ "] " ++ (line.take 5000 ++ "... (truncated)"))) := by
  constructor
  · intro h
    rw [addLine, getLast?_pushEvict m buffer _ hm]
    simp only [formatEntry, truncatedLine, maxLineLength]
    rw [if_neg (by omega)]
  · intro h
    rw [addLine, getLast?_pushEvict m buffer _ hm]
    simp only [formatEntry, truncatedLine, maxLineLength]
    rw [if_pos (by omega)]

/-- Witness for C6 at concrete inputs. -/
theorem addLine_truncation_witness :
    (1 ≤ 1 ∧
      (("abc".length ≤ 5000 →
        (addLine 1 [] "abc" (.ok "T")).getLast? = some ("[" ++ "T" ++ "] " ++ "abc")) ∧
      ("abc".length > 5000 →
        (addLine 1 [] "abc" (.ok "T")).getLast? =
          some ("[" ++ "T" ++ "] " ++ ("abc".take 5000 ++ "... (truncated)"))))) :=
  ⟨by decide, addLine_truncation 1 [] "T" "abc" (by decide)⟩

/-- C7 as stated is false: with one entry in the buffer, `getLines` applied to a
supplied count of `0` does not return the last `0` entries (the empty list) —
it returns the whole buffer, because `!count` is also true for `0`. -/
theorem getLines_zero_counterexample :
    getLines ["[t] a"] (some 0) ≠ lastEntries 0 ["[t] a"] := by
  decide

/-- C7 (amended): `getLines` with no argument returns all entries, oldest to
newest; for every positive supplied count it returns exactly the last `count`
entries in their original insertion order. -/
theorem getLines_spec (buffer : List String) (count : Nat) (hc : 1 ≤ count) :
    getLines buffer none = buffer ∧
    getLines buffer (some count) = lastEntries count buffer := by
  refine ⟨rfl, ?_⟩
  rw [getLines, if_neg (by omega), lastEntries]

/-- Witness for C7 (amended): scenario D — after five lines, asking for the
last two returns exactly the last two in original order. -/
theorem getLines_spec_witness :
    (1 ≤ 2 ∧
      (getLines ["[t] l1", "[t] l2", "[t] l3", "[t] l4", "[t] l5"] none =
          ["[t] l1", "[t] l2", "[t] l3", "[t] l4", "[t] l5"] ∧
        getLines ["[t] l1", "[t] l2", "[t] l3", "[t] l4", "[t] l5"] (some 2) =
          lastEntries 2 ["[t] l1", "[t] l2", "[t] l3", "[t] l4", "[t] l5"])) :=
  ⟨by decide, getLines_spec ["[t] l1", "[t] l2", "[t] l3", "[t] l4", "[t] l5"] 2 (by decide)⟩

/-- C10: on a nonempty buffer, `getLines` with count `0` behaves like the
no-argument call — it returns all entries, not the empty list. -/
theorem getLines_zero_returns_all (buffer : List String) (h : 1 ≤ buffer.length) :
    getLines buffer (some 0) = getLines buffer none ∧ getLines buffer (some 0) ≠ [] := by
  have h1 : getLines buffer (some 0) = buffer := by
    rw [getLines, if_pos rfl]
  refine ⟨h1, ?_⟩
  rw [h1]
  intro hnil
  rw [hnil] at h
  simp at h

/-- Witness for C10 at a concrete one-entry buffer. -/
theorem getLines_zero_returns_all_witness :
    (1 ≤ (["[t] a"] : List String).length ∧
      (getLines ["[t] a"] (some 0) = getLines ["[t] a"] none ∧
        getLines ["[t] a"] (some 0) ≠ [])) :=
  ⟨by decide, getLines_zero_returns_all ["[t] a"] (by decide)⟩

/-! ## Process manager: helper lemmas -/

lemma getLines_pos (buffer : List String) (count : Nat) (h : count ≠ 0) :
    getLines buffer (some count) = lastEntries count buffer := by
  rw [getLines, if_neg h, lastEntries]

lemma pushLog_mp (ts : Nat → String) (s : MState) (line : String) :
    (pushLog ts s line).mp.config = s.mp.config ∧
    (pushLog ts s line).mp.process = s.mp.process ∧
    (pushLog ts s line).mp.status = s.mp.status ∧
    (pushLog ts s line).mp.pid = s.mp.pid ∧
    (pushLog ts s line).mp.startTime = s.mp.startTime ∧
    (pushLog ts s line).mp.error = s.mp.error :=
  ⟨rfl, rfl, rfl, rfl, rfl, rfl⟩

lemma exitCodeLog_fields (ts : Nat → String) (s : MState) (code : Option Int) :
    (exitCodeLog ts s code).mp.status = s.mp.status ∧
    (exitCodeLog ts s code).mp.pid = s.mp.pid ∧
    (exitCodeLog ts s code).mp.process = s.mp.process := by
  rw [exitCodeLog]
  split
  · exact ⟨rfl, rfl, rfl⟩
  · exact ⟨rfl, rfl, rfl⟩

lemma onExit_fields (ts : Nat → String) (s : MState) (code : Option Int)
    (signal : Option String) :
    (onExit ts s code signal).mp.status = .stopped ∧
    (onExit ts s code signal).mp.pid = none ∧
    (onExit ts s code signal).mp.process = s.mp.process := by
  cases signal with
  | none => simpa using exitCodeLog_fields ts ⟨{ s.mp with status := .stopped, pid := none }, s.clock⟩ code
  | some sig =>
    by_cases hs : sig = ""
    · simp only [onExit, hs, if_pos rfl]
      simpa using exitCodeLog_fields ts ⟨{ s.mp with status := .stopped, pid := none }, s.clock⟩ code
    · simp only [onExit, if_neg hs]
      exact ⟨rfl, rfl, rfl⟩

end Rewatch

namespace Rewatch

/-! ## Process manager: claim theorems -/

/-- C1 is false on the code: after the exit event fires on a running record
with a live handle, the status is `stopped` and `pid` is cleared, but the
handle is still present — so the handle is not present only in
`starting`/`running`, and `pid` and the handle are not cleared together on
that transition. -/
theorem handle_retained_on_exit_counterexample :
    (onExit exTs ⟨runningMp, 0⟩ (some 0) none).mp.status = ProcessStatus.stopped ∧
    (onExit exTs ⟨runningMp, 0⟩ (some 0) none).mp.pid = none ∧
    (onExit exTs ⟨runningMp, 0⟩ (some 0) none).mp.process = some ⟨some 42⟩ := by
  decide

/-- C1 (amended): the exit handler transitions to `stopped` and clears `pid`
but retains the handle; the spawn-error handler transitions to `error`
retaining both `pid` and the handle; only `stop`'s cleanup clears `pid` and
the handle together, atomically with its transition to `stopped`. -/
theorem handle_pid_clearing (ts : Nat → String) (s : MState) (code : Option Int)
    (signal : Option String) (e : ProcessError) (r : StopRun) (reason : String)
    (hk : r.killed = false) :
    ((onExit ts s code signal).mp.status = .stopped ∧
      (onExit ts s code signal).mp.pid = none ∧
      (onExit ts s code signal).mp.process = s.mp.process) ∧
    ((handleProcessError ts s e).mp.status = .error ∧
      (handleProcessError ts s e).mp.pid = s.mp.pid ∧
      (handleProcessError ts s e).mp.process = s.mp.process) ∧
    ((cleanup ts r reason).st.mp.process = none ∧
      (cleanup ts r reason).st.mp.pid = none ∧
      (cleanup ts r reason).st.mp.status = .stopped) := by
  refine ⟨onExit_fields ts s code signal, ⟨rfl, rfl, rfl⟩, ?_⟩
  rw [cleanup, if_neg (by rw [hk]; simp)]
  exact ⟨rfl, rfl, rfl⟩

/-- Witness for C1 (amended) at concrete inputs. -/
theorem handle_pid_clearing_witness :
    ((⟨⟨runningMp, 0⟩, false, 0⟩ : StopRun).killed = false ∧
      (((onExit exTs ⟨runningMp, 0⟩ (some 0) none).mp.status = .stopped ∧
        (onExit exTs ⟨runningMp, 0⟩ (some 0) none).mp.pid = none ∧
        (onExit exTs ⟨runningMp, 0⟩ (some 0) none).mp.process = runningMp.process) ∧
      ((handleProcessError exTs ⟨runningMp, 0⟩ spawnEnoent).mp.status = .error ∧
        (handleProcessError exTs ⟨runningMp, 0⟩ spawnEnoent).mp.pid = runningMp.pid ∧
        (handleProcessError exTs ⟨runningMp, 0⟩ spawnEnoent).mp.process = runningMp.process) ∧
      ((cleanup exTs ⟨⟨runningMp, 0⟩, false, 0⟩ "graceful shutdown").st.mp.process = none ∧
        (cleanup exTs ⟨⟨runningMp, 0⟩, false, 0⟩ "graceful shutdown").st.mp.pid = none ∧
        (cleanup exTs ⟨⟨runningMp, 0⟩, false, 0⟩ "graceful shutdown").st.mp.status = .stopped))) :=
  ⟨rfl, handle_pid_clearing exTs ⟨runningMp, 0⟩ (some 0) none spawnEnoent
    ⟨⟨runningMp, 0⟩, false, 0⟩ "graceful shutdown" rfl⟩

/-- C8: `start` on a record whose status is `starting` or `running` is a no-op —
the state (status, pid, handle, lastError, log buffer) is returned unchanged,
nothing is raised and the spawn call is never reached; from `stopped` and
`error`, the only other statuses, `start` proceeds to spawn. -/
theorem start_noop_when_active (ts : Nat → String) (s : MState) (outcome : SpawnOutcome)
    (now : Nat) :
    (s.mp.status = .starting ∨ s.mp.status = .running →
      start ts s outcome now = ⟨s, none, false⟩) ∧
    (s.mp.status = .stopped ∨ s.mp.status = .error →
      (start ts s outcome now).spawnAttempted = true) := by
  constructor
  · intro h
    rw [start, if_pos (by tauto)]
  · intro h
    have hne : ¬ (s.mp.status = .running ∨ s.mp.status = .starting) := by
      rcases h with h | h <;> rw [h] <;> decide
    simp only [start, if_neg hne]
    cases outcome with
    | ok p => rfl
    | raises e =>
      by_cases he : e.code = some "ENOENT" <;> simp [he]

/-- Witness for C8 at concrete records in status `running` and `stopped`. -/
theorem start_noop_when_active_witness :
    ((start exTs ⟨runningMp, 0⟩ (.ok (some 7)) 5 = ⟨⟨runningMp, 0⟩, none, false⟩) ∧
      ((start exTs ⟨stoppedMp, 0⟩ (.ok (some 7)) 5).spawnAttempted = true)) :=
  ⟨(start_noop_when_active exTs ⟨runningMp, 0⟩ (.ok (some 7)) 5).1 (Or.inr rfl),
    (start_noop_when_active exTs ⟨stoppedMp, 0⟩ (.ok (some 7)) 5).2 (Or.inl rfl)⟩

/-- C4: `stop` with no live handle resolves immediately without mutating the
record; with a live handle, every path — exit before the timer, SIGTERM
delivery failure, and escalation with or without a racing exit event during
the grace wait — resolves with status `stopped`, `pid` and the handle cleared
together, and the single-shot cleanup body having run exactly once. -/
theorem stop_always_resolves_stopped (ts : Nat → String) (s : MState) (isWin : Bool)
    (scen : StopScenario) :
    (s.mp.process = none → stop ts s isWin scen = ⟨s, false, 0⟩) ∧
    (s.mp.process ≠ none →
      (stop ts s isWin scen).st.mp.status = .stopped ∧
      (stop ts s isWin scen).st.mp.pid = none ∧
      (stop ts s isWin scen).st.mp.process = none ∧
      (stop ts s isWin scen).cleanups = 1) := by
  constructor
  · intro h
    simp only [stop, h]
  · intro h
    obtain ⟨proc, hp⟩ := Option.ne_none_iff_exists'.mp h
    cases scen with
    | sigtermThrows em =>
      simp [stop, hp, cleanup, pushLog]
    | exitBeforeTimer =>
      simp [stop, hp, cleanup, pushLog]
    | escalate skErr exitDuring =>
      cases skErr <;> cases exitDuring <;>
        cases hg : (!isWin && pidTruthy proc.pid) <;>
          simp [stop, hp, cleanup, pushLog, hg]

/-- Witness for C4: a record with no handle is untouched; a running record with
a handle, under escalation with a racing exit event, ends stopped with pid and
handle cleared and one cleanup. -/
theorem stop_always_resolves_stopped_witness :
    ((stop exTs ⟨stoppedMp, 0⟩ false .exitBeforeTimer = ⟨⟨stoppedMp, 0⟩, false, 0⟩) ∧
      ((stop exTs ⟨runningMp, 0⟩ false (.escalate none true)).st.mp.status = .stopped ∧
        (stop exTs ⟨runningMp, 0⟩ false (.escalate none true)).st.mp.pid = none ∧
        (stop exTs ⟨runningMp, 0⟩ false (.escalate none true)).st.mp.process = none ∧
        (stop exTs ⟨runningMp, 0⟩ false (.escalate none true)).cleanups = 1)) :=
  ⟨(stop_always_resolves_stopped exTs ⟨stoppedMp, 0⟩ false .exitBeforeTimer).1 rfl,
    (stop_always_resolves_stopped exTs ⟨runningMp, 0⟩ false (.escalate none true)).2
      (by decide)⟩

end Rewatch

namespace Rewatch

/-! ## Error classifier, spawn errors, restart -/

lemma substringOf_notFound (cmd : String) :
    substringOf "not found" ("Command not found: " ++ cmd) := by
  refine ⟨"Command ".data, (": " ++ cmd).data, ?_⟩
  simp [String.data_append, List.append_assoc]

lemma classifyError_enoent (e : ProcessError) (command : String) (cwd : Option String)
    (hcode : e.code = some "ENOENT") :
    classifyError e command cwd =
      ⟨.notFound, "Command not found: " ++ command,
        "Command '" ++ command ++ "' not found. Check if it's installed and in PATH."⟩ := by
  rw [classifyError]
  have hkey : e.code.getD "" = "ENOENT" := by rw [hcode]; rfl
  simp only [hkey]
  rw [if_pos trivial]

lemma classifyError_unknown (e : ProcessError) (command : String) (cwd : Option String)
    (h1 : e.code.getD "" ≠ "ENOENT") (h2 : e.code.getD "" ≠ "EACCES")
    (h3 : e.code.getD "" ≠ "ENOTDIR") (h4 : e.code.getD "" ≠ "EMFILE") :
    classifyError e command cwd =
      ⟨.unknown, e.message,
        "Process error: " ++ e.message ++ " (" ++
          (if e.code.getD "" = "" then "unknown code" else e.code.getD "") ++ ")"⟩ := by
  simp only [classifyError]
  rw [if_neg h1, if_neg h2, if_neg h3, if_neg h4]

lemma config_clearBuf (s : MState) : (clearBuf s).mp.config = s.mp.config := rfl

lemma config_stop (ts : Nat → String) (s : MState) (isWin : Bool) (scen : StopScenario) :
    (stop ts s isWin scen).st.mp.config = s.mp.config := by
  cases hp : s.mp.process with
  | none => simp [stop, hp]
  | some proc =>
    cases scen with
    | sigtermThrows em => simp [stop, hp, cleanup, pushLog]
    | exitBeforeTimer => simp [stop, hp, cleanup, pushLog]
    | escalate skErr exitDuring =>
      cases skErr <;> cases exitDuring <;>
        cases hg : (!isWin && pidTruthy proc.pid) <;>
          simp [stop, hp, cleanup, pushLog, hg]

lemma config_start (ts : Nat → String) (s : MState) (outcome : SpawnOutcome) (now : Nat) :
    (start ts s outcome now).st.mp.config = s.mp.config := by
  rw [start]
  split
  · rfl
  · cases outcome with
    | ok p => rfl
    | raises e => by_cases he : e.code = some "ENOENT" <;> simp [he, pushLog]

lemma start_raised (ts : Nat → String) (s : MState) (outcome : SpawnOutcome) (now : Nat)
    (e : ProcessError) (h : (start ts s outcome now).raised = some e) :
    outcome = .raises e := by
  by_cases hg : (s.mp.status = .running ∨ s.mp.status = .starting)
  · rw [start, if_pos hg] at h
    simp at h
  · rw [start, if_neg hg] at h
    cases outcome with
    | ok p => simp at h
    | raises e2 =>
      by_cases he : e2.code = some "ENOENT" <;> simp [he] at h <;> rw [h]

/-- C9 is false on the code: for a command-not-found code the classifier's
message names the command inside the first clause, not after a colon as the
spec's template does. -/
theorem classifier_message_counterexample :
    (classifyError spawnEnoent "next" none).category = .notFound ∧
    (classifyError spawnEnoent "next" none).message ≠
      "Command not found: next. Check if it's installed and in PATH." ∧
    (classifyError spawnEnoent "next" none).message =
      "Command 'next' not found. Check if it's installed and in PATH." := by
  decide

/-- C9 (amended): a command-not-found code yields category not-found with
recorded error "Command not found: {command}" and message
"Command '{command}' not found. Check if it's installed and in PATH.";
every unrecognized code yields category unknown, records the raw message, and
produces "Process error: {raw message} ({code or 'unknown code'})". -/
theorem classifier_table (e : ProcessError) (command raw : String) (cwd : Option String)
    (hu : e.code.getD "" ∉ (["ENOENT", "EACCES", "ENOTDIR", "EMFILE"] : List String)) :
    (classifyError ⟨some "ENOENT", raw⟩ command cwd =
      ⟨.notFound, "Command not found: " ++ command,
        "Command '" ++ command ++ "' not found. Check if it's installed and in PATH."⟩) ∧
    ((classifyError e command cwd).category = .unknown ∧
      (classifyError e command cwd).error = e.message ∧
      ((e.code = none ∨ e.code = some "") →
        (classifyError e command cwd).message =
          "Process error: " ++ e.message ++ " (unknown code)") ∧
      (∀ c, e.code = some c → c ≠ "" →
        (classifyError e command cwd).message =
          "Process error: " ++ e.message ++ " (" ++ c ++ ")")) := by
  simp only [List.mem_cons, List.not_mem_nil, or_false, not_or] at hu
  obtain ⟨h1, h2, h3, h4⟩ := hu
  refine ⟨classifyError_enoent _ _ _ rfl, ?_, ?_, ?_, ?_⟩
  · simp [classifyError_unknown e command cwd h1 h2 h3 h4]
  · simp [classifyError_unknown e command cwd h1 h2 h3 h4]
  · intro hc
    have hkey : e.code.getD "" = "" := by rcases hc with hc | hc <;> rw [hc] <;> rfl
    have l1 : (" (" ++ "unknown code" : String) = " (unknown code" := rfl
    have l2 : (" (unknown code" ++ ")" : String) = " (unknown code)" := rfl
    rw [classifyError_unknown e command cwd h1 h2 h3 h4]
    show "Process error: " ++ e.message ++ " (" ++
        (if e.code.getD "" = "" then "unknown code" else e.code.getD "") ++ ")" = _
    rw [hkey, if_pos rfl, String.append_assoc _ " (" "unknown code", l1,
      String.append_assoc _ " (unknown code" ")", l2]
  · intro c hc hcne
    have hkey : e.code.getD "" = c := by rw [hc]; rfl
    simp [classifyError_unknown e command cwd h1 h2 h3 h4, hkey, hcne]

/-- Witness for C9 (amended) at a concrete unrecognized code. -/
theorem classifier_table_witness :
    ((⟨some "EWEIRD", "boom"⟩ : ProcessError).code.getD "" ∉
        (["ENOENT", "EACCES", "ENOTDIR", "EMFILE"] : List String) ∧
      (classifyError ⟨some "EWEIRD", "boom"⟩ "next" none).category = .unknown) :=
  ⟨by decide, (classifier_table ⟨some "EWEIRD", "boom"⟩ "next" "boom" none (by decide)).2.1⟩

/-- C5 is false on the code in the asynchronous case: spawning a nonexistent
command returns a handle and `start` resolves without raising — the ENOENT
arrives afterwards through the `error` event, which records `status: 'error'`
but throws nothing to `start`'s caller. -/
theorem async_spawn_error_not_raised_counterexample :
    (start exTs ⟨badCmdMp, 0⟩ (.ok none) 0).raised = none ∧
    (handleProcessError exTs (start exTs ⟨badCmdMp, 0⟩ (.ok none) 0).st spawnEnoent).mp.status
      = ProcessStatus.error := by
  decide

/-- C5 (amended): on a startable record whose command does not exist, a
synchronous spawn ENOENT is raised to `start`'s caller, while the asynchronous
ENOENT `error` event is not raised — `start` resolves normally; in both cases
the record ends in status `error` with a recorded error message containing
"not found", which `listProcesses` reports for that name (it snapshots every
record's name, status and error as they stand). -/
theorem start_enoent (ts : Nat → String) (s : MState) (now : Nat) (e : ProcessError)
    (procPid : Option Nat) (name : String) (processes : List (String × ManagedProcess))
    (hcode : e.code = some "ENOENT")
    (hstart : s.mp.status = .stopped ∨ s.mp.status = .error) :
    ((start ts s (.raises e) now).raised = some e ∧
      (start ts s (.raises e) now).st.mp.status = .error ∧
      ∃ msg, (start ts s (.raises e) now).st.mp.error = some msg ∧
        substringOf "not found" msg) ∧
    ((start ts s (.ok procPid) now).raised = none ∧
      (handleProcessError ts (start ts s (.ok procPid) now).st e).mp.status = .error ∧
      ∃ msg, (handleProcessError ts (start ts s (.ok procPid) now).st e).mp.error = some msg ∧
        substringOf "not found" msg) ∧
    (∀ m : ManagedProcess, (name, m) ∈ processes →
      ∃ info ∈ listProcesses processes,
        info.name = name ∧ info.status = m.status ∧ info.error = m.error) := by
  have hne : ¬ (s.mp.status = .running ∨ s.mp.status = .starting) := by
    rcases hstart with h | h <;> rw [h] <;> decide
  refine ⟨⟨?_, ?_, ?_⟩, ⟨?_, rfl, ?_⟩, ?_⟩
  · simp only [start, if_neg hne]
    rw [if_pos hcode]
  · simp only [start, if_neg hne]
    rw [if_pos hcode]
    rfl
  · refine ⟨"Command not found: " ++ s.mp.config.command, ?_, substringOf_notFound _⟩
    simp only [start, if_neg hne]
    rw [if_pos hcode]
    rfl
  · simp only [start, if_neg hne]
  · refine ⟨"Command not found: " ++ s.mp.config.command, ?_, substringOf_notFound _⟩
    have hcfg : (start ts s (.ok procPid) now).st.mp.config = s.mp.config :=
      config_start ts s (.ok procPid) now
    show some (classifyError e (start ts s (.ok procPid) now).st.mp.config.command
        (start ts s (.ok procPid) now).st.mp.config.cwd).error = _
    rw [hcfg, classifyError_enoent e _ _ hcode]
  · intro m hm
    refine ⟨⟨name, m.status, m.pid, m.startTime, m.error⟩, ?_, rfl, rfl, rfl⟩
    rw [listProcesses]
    exact List.mem_map.mpr ⟨(name, m), hm, rfl⟩

/-- Witness for C5 (amended) at a concrete missing-command record. -/
theorem start_enoent_witness :
    ((start exTs ⟨badCmdMp, 0⟩ (.raises spawnEnoent) 0).raised = some spawnEnoent ∧
      (start exTs ⟨badCmdMp, 0⟩ (.ok none) 0).raised = none) :=
  ⟨(start_enoent exTs ⟨badCmdMp, 0⟩ 0 spawnEnoent none "bad" [("bad", badCmdMp)]
      rfl (Or.inl rfl)).1.1,
    (start_enoent exTs ⟨badCmdMp, 0⟩ 0 spawnEnoent none "bad" [("bad", badCmdMp)]
      rfl (Or.inl rfl)).2.1.1⟩

/-- C3 is false on the code at a config with `startupDelay: 0`: the wait is
`startupDelay || 3000`, so a configured 0 yields a 3000 ms wait, not the
configured value. -/
theorem restart_delay_counterexample :
    zeroDelayMp.config.startupDelay = some 0 ∧
    (restart exTs ⟨zeroDelayMp, 0⟩ false .exitBeforeTimer (.ok (some 7)) 0 []).toOption.map
        (fun r => r.waited) = some 3000 ∧
    (3000 : Nat) ≠ 0 := by
  decide

/-- C3 (amended): `restart` performs `stop`, clears the buffer, performs
`start`, waits the configured startupDelay when it is nonzero and 3000 ms when
the config omits it or sets it to 0, then samples status; it resolves with
`success` true exactly when the sampled status is `running` and `logs` the last
20 buffer entries; a synchronous spawn error is the only way it rejects; and
its result is independent of the pre-restart log buffer (it is cleared between
`stop` and `start`). -/
theorem restart_spec (ts : Nat → String) (s : MState) (isWin : Bool) (scen : StopScenario)
    (outcome : SpawnOutcome) (now : Nat) (events : List AsyncEvent) (nb : List String)
    (d : Nat) (hd : d ≠ 0) :
    (effectiveStartupDelay { s.mp.config with startupDelay := none } = 3000 ∧
      effectiveStartupDelay { s.mp.config with startupDelay := some 0 } = 3000 ∧
      effectiveStartupDelay { s.mp.config with startupDelay := some d } = d) ∧
    (∀ r, restart ts s isWin scen outcome now events = .ok r →
      r.waited = effectiveStartupDelay s.mp.config ∧
      (r.success = true ↔ r.st.mp.status = .running) ∧
      r.logs = getLines r.st.mp.logBuffer (some 20) ∧
      r.logs = lastEntries 20 r.st.mp.logBuffer) ∧
    (∀ e, restart ts s isWin scen outcome now events = .error e → outcome = .raises e) ∧
    (restart ts ⟨{ s.mp with logBuffer := nb }, s.clock⟩ isWin scen outcome now events =
      restart ts s isWin scen outcome now events) := by
  refine ⟨⟨rfl, rfl, ?_⟩, ?_, ?_, ?_⟩
  · simp only [effectiveStartupDelay]
    rw [if_neg hd]
  · intro r hr
    simp only [restart] at hr
    cases hmatch : (start ts (clearBuf (stop ts s isWin scen).st) outcome now).raised with
    | some e2 =>
      rw [hmatch] at hr
      simp at hr
    | none =>
      rw [hmatch] at hr
      simp only [Except.ok.injEq] at hr
      subst hr
      refine ⟨?_, ?_, rfl, ?_⟩
      · show effectiveStartupDelay (start ts (clearBuf (stop ts s isWin scen).st) outcome now).st.mp.config = _
        rw [config_start, config_clearBuf, config_stop]
      · exact decide_eq_true_iff
      · exact getLines_pos _ 20 (by decide)
  · intro e he
    simp only [restart] at he
    cases hmatch : (start ts (clearBuf (stop ts s isWin scen).st) outcome now).raised with
    | none =>
      rw [hmatch] at he
      simp at he
    | some e2 =>
      rw [hmatch] at he
      simp only [Except.error.injEq] at he
      subst he
      exact start_raised _ _ _ _ _ hmatch
  · have hclear : clearBuf (stop ts ⟨{ s.mp with logBuffer := nb }, s.clock⟩ isWin scen).st =
        clearBuf (stop ts s isWin scen).st := by
      obtain ⟨⟨cfg, proc, st0, pid0, stT, buf, err⟩, ck⟩ := s
      cases proc with
      | none => simp [stop, clearBuf]
      | some proc =>
        cases scen with
        | sigtermThrows em => simp [stop, cleanup, pushLog, clearBuf]
        | exitBeforeTimer => simp [stop, cleanup, pushLog, clearBuf]
        | escalate skErr exitDuring =>
          cases skErr <;> cases exitDuring <;>
            cases hg : (!isWin && pidTruthy proc.pid) <;>
              simp [stop, cleanup, pushLog, clearBuf, hg]
    simp only [restart, hclear]

/-- Witness for C3 (amended) at concrete inputs. -/
theorem restart_spec_witness :
    (effectiveStartupDelay { zeroDelayMp.config with startupDelay := some 5 } = 5 ∧
      restart exTs ⟨{ zeroDelayMp with logBuffer := ["old"] }, 0⟩ false .exitBeforeTimer
          (.ok (some 7)) 0 [] =
        restart exTs ⟨zeroDelayMp, 0⟩ false .exitBeforeTimer (.ok (some 7)) 0 []) :=
  ⟨(restart_spec exTs ⟨zeroDelayMp, 0⟩ false .exitBeforeTimer (.ok (some 7)) 0 [] ["old"] 5
      (by decide)).1.2.2,
    (restart_spec exTs ⟨zeroDelayMp, 0⟩ false .exitBeforeTimer (.ok (some 7)) 0 [] ["old"] 5
      (by decide)).2.2.2⟩

end Rewatch
